import Mathlib

/-!
Shallow embedding of the Wavefront line-protocol encoders of
fredwangwang/wavefront-sdk-go (internal/string_builder.go plus the
senders line-builder file of the same repository).

Go strings are modelled as lists of bytes (List Nat, each byte < 256).
Encoders that can reach a runtime panic return
Option (Except String (List Nat)): none models the panic, Except.error
a returned Go error value and Except.ok the produced line bytes.
The buffer plumbing (StringBuilder, GetBuffer/PutBuffer) only
accumulates bytes, so each encoder is embedded as the byte list it
writes, in the order the source writes it.
-/

set_option autoImplicit false

namespace WF

/-- Bytes of an ASCII string literal, used to write byte lists legibly.
Only applied to ASCII strings, where the code points are the bytes. -/
def goStr (s : String) : List Nat := s.data.map Char.toNat

/-- Modelled from the spec and the source comments: internal.DeltaPrefix,
the increment marker U+2206 as UTF-8 bytes (the source skips 3 bytes
after it). -/
def deltaPfx : List Nat := [226, 136, 134]

/-- Modelled from the spec and the source comments: internal.AltDeltaPrefix,
the greek capital delta U+0394 as UTF-8 bytes (the source skips 2 bytes
after it). -/
def altDeltaPfx : List Nat := [206, 148]

/-- One byte of identifier sanitization: bytes in [44,57] (",-./0-9"),
[65,90] ("A-Z"), [97,122] ("a-z") and 95 ("_") are kept, every other
byte becomes 45 ("-"). -/
def sanByte (c : Nat) : Nat :=
  if (44 ≤ c ∧ c ≤ 57) ∨ (65 ≤ c ∧ c ≤ 90) ∨ (97 ≤ c ∧ c ≤ 122) ∨ c = 95 then c else 45

/-- Head handling of sanitizeInternal/sanitizeInternalSb: the delta
bytes copied to the output and the number of skipped input bytes. -/
def sanitizeHead (str : List Nat) : List Nat × Nat :=
  let p := if deltaPfx.isPrefixOf str then (deltaPfx, 3) else (([] : List Nat), 0)
  if altDeltaPfx.isPrefixOf str then (p.1 ++ altDeltaPfx, 2) else p

/-- sanitizeInternal and sanitizeInternalSb (both emit the same bytes;
the Sb form appends them to a caller-supplied buffer). The source then
reads str[skipHead] without a bounds check, so none models the
index-out-of-range panic when skipHead is not below the length. -/
def sanitizeInternal (str : List Nat) : Option (List Nat) :=
  let pfx := (sanitizeHead str).1
  let skipHead := (sanitizeHead str).2
  if h : skipHead < str.length then
    if str.get ⟨skipHead, h⟩ = 126 then
      some (pfx ++ [126] ++ (str.drop (skipHead + 1)).map sanByte)
    else some (pfx ++ (str.drop skipHead).map sanByte)
  else none

/-- The six ASCII bytes strings.TrimSpace strips on its fast path. -/
def asciiSpace (c : Nat) : Bool :=
  c == 9 || c == 10 || c == 11 || c == 12 || c == 13 || c == 32

/-- ASCII model of strings.TrimSpace; no claim involves the non-ASCII
Unicode white space also trimmed by Go. -/
def trimSpace (s : List Nat) : List Nat :=
  ((s.dropWhile asciiSpace).reverse.dropWhile asciiSpace).reverse

/-- strings.ReplaceAll for a single-byte pattern. -/
def replAll (s : List Nat) (b : Nat) (r : List Nat) : List Nat :=
  (s.map fun c => if c = b then r else [c]).flatten

/-- sanitizeValue and sanitizeValueSb: trim, escape double quotes (the
Contains test is on the untrimmed input, exactly as in the source),
escape newlines as backslash-n, wrap in double quotes. -/
def sanitizeValue (str : List Nat) : List Nat :=
  let res := trimSpace str
  let res := if 34 ∈ str then replAll res 34 [92, 34] else res
  [34] ++ replAll res 10 [92, 110] ++ [34]

/-- Decimal digits of a natural number; the fuel argument only bounds
the recursion and fuel n+1 always suffices. -/
def natDecimalAux : Nat → Nat → List Nat
  | 0, _ => []
  | f + 1, n => if n < 10 then [48 + n] else natDecimalAux f (n / 10) ++ [48 + n % 10]

def natDecimal (n : Nat) : List Nat := natDecimalAux (n + 1) n

/-- strconv.AppendInt(buf, i, 10): minimal decimal text of an int64. -/
def intDecimal (i : Int) : List Nat :=
  if i < 0 then 45 :: natDecimal i.natAbs else natDecimal i.toNat

/-- Model of a Go float64 that is exactly an integer value. Every
float64 in the claims is integer-valued, and
strconv.AppendFloat(f, 'f', -1, 64) renders such a value as its
minimal decimal integer text. -/
abbrev GoFloat := Int

def floatBytes (f : GoFloat) : List Nat := intDecimal f

/-- A hexadecimal-digit byte, case-insensitive, as in isUUIDFormat. -/
def isHexB (c : Nat) : Bool :=
  decide ((48 ≤ c ∧ c ≤ 57) ∨ (97 ≤ c ∧ c ≤ 102) ∨ (65 ≤ c ∧ c ≤ 70))

/-- isUUIDFormat: 36 bytes, dashes at indices 8, 13, 18, 23, hex
digits everywhere else. -/
def isUUIDFormat (str : List Nat) : Bool :=
  if str.length ≠ 36 then false
  else (List.range str.length).all fun i =>
    if i = 8 ∨ i = 13 ∨ i = 18 ∨ i = 23 then str.getD i 0 == 45
    else isHexB (str.getD i 0)

/-- Two's-complement wrap of an integer into the int64 range, the
semantics of Go int64 arithmetic on overflow. -/
def int64wrap (x : Int) : Int := (x + 2 ^ 63) % 2 ^ 64 - 2 ^ 63

/-- adjustStartEndTime: a start below 999999999999 (strictly) and an
end at most 999999999999 are taken as seconds and scaled to millis; a
zero end then becomes start + 1. -/
def adjustStartEndTime (startMillis endMillis : Int) : Int × Int :=
  let startMillis :=
    if startMillis < 999999999999 then int64wrap (startMillis * 1000) else startMillis
  let endMillis :=
    if endMillis ≤ 999999999999 then int64wrap (endMillis * 1000) else endMillis
  let endMillis := if endMillis = 0 then int64wrap (startMillis + 1) else endMillis
  (startMillis, endMillis)

/-- Go maps are modelled as association lists with the iteration order
of the list; the claims settled here do not depend on the unspecified
Go map iteration order. One tag of MetricLine or HistoLine. -/
abbrev TagList := List (List Nat × List Nat)

/-- The source's reassignment: if source == "" then source = defaultSource. -/
def orDefault (source defaultSource : List Nat) : List Nat :=
  if source = [] then defaultSource else source

/-- The bytes the MetricLine tag loop appends: checks each value for
blankness before sanitizing the key (panicking sanitization of a key
is none), exactly in the source's loop order. -/
def metricTagsBytes : TagList → Option (Except String (List Nat))
  | [] => some (.ok [])
  | (k, v) :: rest =>
    if v = [] then some (.error ("metric point tag value cannot be blank"))
    else
      match sanitizeInternal k with
      | none => none
      | some sk =>
        match metricTagsBytes rest with
        | none => none
        | some (.error e) => some (.error e)
        | some (.ok bs) =>
          some (.ok ([32, 34] ++ sk ++ [34, 61] ++ sanitizeValue v ++ bs))

/-- MetricLine. The value argument is the integer-valued float64 model. -/
def MetricLine (name : List Nat) (value : GoFloat) (ts : Int) (source : List Nat)
    (tags : TagList) (defaultSource : List Nat) : Option (Except String (List Nat)) :=
  if name = [] then some (.error ("empty metric name"))
  else
    match sanitizeInternal name with
    | none => none
    | some sname =>
      match metricTagsBytes tags with
      | none => none
      | some (.error e) => some (.error e)
      | some (.ok tagBytes) =>
        let body := [34] ++ sname ++ [34] ++ [32] ++ floatBytes value
          ++ (if ts ≠ 0 then [32] ++ intDecimal ts else [])
          ++ goStr (" source=") ++ sanitizeValue (orDefault source defaultSource) ++ tagBytes
        some (.ok (body ++ [10]))

/-- One histogram centroid: a (value, count) pair. -/
structure Centroid where
  value : GoFloat
  count : Int
deriving DecidableEq

/-- Inserts a centroid into an accumulator, merging into an existing
entry of the same value. -/
def addCentroid (acc : List Centroid) (c : Centroid) : List Centroid :=
  match acc with
  | [] => [c]
  | a :: rest =>
    if a.value = c.value then ⟨a.value, a.count + c.count⟩ :: rest
    else a :: addCentroid rest c

/-- Modelled from the spec: histogram.Centroids.Compact is not under
src; the spec describes compaction as merging centroids per unique
value. Counts of equal values are summed; values keep their
first-occurrence order. -/
def Compact (cs : List Centroid) : List Centroid := cs.foldl addCentroid []

/-- The bytes HistoLine writes for one centroid: " #count value". -/
def centroidPairBytes (c : Centroid) : List Nat :=
  goStr (" #") ++ intDecimal c.count ++ [32] ++ floatBytes c.value

/-- The centroid section of a HistoLine body, written from the
compacted sequence. -/
def centroidsBytes (cs : List Centroid) : List Nat :=
  ((Compact cs).map centroidPairBytes).flatten

/-- Modelled from the spec: the histogram granularities
(minute/hour/day) whose String() values are the wire tokens of the
source comment on HistoLine. -/
inductive Granularity where
  | minute
  | hour
  | day
deriving DecidableEq

/-- Modelled from the spec: the wire token of a granularity. -/
def granBytes : Granularity → List Nat
  | .minute => goStr ("!M")
  | .hour => goStr ("!H")
  | .day => goStr ("!D")

/-- The HistoLine tag loop, as metricTagsBytes but with the histogram
error text. -/
def histoTagsBytes : TagList → Option (Except String (List Nat))
  | [] => some (.ok [])
  | (k, v) :: rest =>
    if v = [] then some (.error ("histogram tag value cannot be blank"))
    else
      match sanitizeInternal k with
      | none => none
      | some sk =>
        match histoTagsBytes rest with
        | none => none
        | some (.error e) => some (.error e)
        | some (.ok bs) =>
          some (.ok ([32, 34] ++ sk ++ [34, 61] ++ sanitizeValue v ++ bs))

/-- HistoLine: one output line per enabled granularity, each the
granularity token followed by the shared body and a newline. -/
def HistoLine (name : List Nat) (centroids : List Centroid)
    (hgs : List (Granularity × Bool)) (ts : Int) (source : List Nat)
    (tags : TagList) (defaultSource : List Nat) : Option (Except String (List Nat)) :=
  if name = [] then some (.error ("empty distribution name"))
  else if centroids = [] then some (.error ("distribution should have at least one centroid"))
  else if hgs = [] then some (.error ("histogram granularities cannot be empty"))
  else
    let tsPart := if ts ≠ 0 then [32] ++ intDecimal ts else []
    match sanitizeInternal name with
    | none => none
    | some sname =>
      match histoTagsBytes tags with
      | none => none
      | some (.error e) => some (.error e)
      | some (.ok tagBytes) =>
        let body := tsPart ++ centroidsBytes centroids ++ [32, 34] ++ sname ++ [34]
          ++ goStr (" source=") ++ sanitizeValue (orDefault source defaultSource) ++ tagBytes
        some (.ok (((hgs.filter fun g => g.2).map fun g => granBytes g.1 ++ body ++ [10]).flatten))

/-- The SpanLine tag loop: a blank key or value is an error, then the
key is sanitized (none on its panic) and the value sanitized. -/
def spanTagsBytes : TagList → Option (Except String (List Nat))
  | [] => some (.ok [])
  | (k, v) :: rest =>
    if k = [] ∨ v = [] then some (.error ("span tag key/value cannot be blank"))
    else
      match sanitizeInternal k with
      | none => none
      | some sk =>
        match spanTagsBytes rest with
        | none => none
        | some (.error e) => some (.error e)
        | some (.ok bs) =>
          some (.ok ([32, 34] ++ sk ++ [34, 61] ++ sanitizeValue v ++ bs))

/-- SpanLine. Span logs are opaque here; only their presence toggles
the marker field. -/
def SpanLine (name : List Nat) (startMillis durationMillis : Int) (source : List Nat)
    (traceId spanId : List Nat) (parents followsFrom : List (List Nat))
    (tags : TagList) (spanLogsLen : Nat) (defaultSource : List Nat) :
    Option (Except String (List Nat)) :=
  if name = [] then some (.error ("empty span name"))
  else
    if isUUIDFormat traceId = false then some (.error ("traceId is not in UUID format"))
    else if isUUIDFormat spanId = false then some (.error ("spanId is not in UUID format"))
    else
      match spanTagsBytes tags with
      | none => none
      | some (.error e) => some (.error e)
      | some (.ok tagBytes) =>
        let body := sanitizeValue name ++ goStr (" source=")
          ++ sanitizeValue (orDefault source defaultSource)
          ++ goStr (" traceId=") ++ traceId ++ goStr (" spanId=") ++ spanId
          ++ (parents.map fun p => goStr (" parent=") ++ p).flatten
          ++ (followsFrom.map fun p => goStr (" followsFrom=") ++ p).flatten
          ++ (if spanLogsLen > 0 then goStr (" \"_spanLogs\"=\"true\"") else [])
          ++ tagBytes
          ++ [32] ++ intDecimal startMillis ++ [32] ++ intDecimal durationMillis
        some (.ok (body ++ [10]))

/-- A lowercase hexadecimal digit byte. -/
def hexDigit (n : Nat) : Nat := if n < 10 then 48 + n else 87 + (n - 10)

/-- Model of the escaping of encoding/json for one byte of a string:
quote, backslash, newline, carriage return and tab get two-byte
escapes, other control bytes and the HTML-escaped <, > and & become
backslash-u escapes, everything else is copied (Go passes printable
UTF-8 through; no claim involves non-ASCII bytes here). -/
def jsonEsc (c : Nat) : List Nat :=
  if c = 34 then [92, 34]
  else if c = 92 then [92, 92]
  else if c = 10 then [92, 110]
  else if c = 13 then [92, 114]
  else if c = 9 then [92, 116]
  else if c < 32 ∨ c = 60 ∨ c = 62 ∨ c = 38 then
    [92, 117, 48, 48, hexDigit (c / 16), hexDigit (c % 16)]
  else [c]

def jsonQuote (s : List Nat) : List Nat := [34] ++ (s.map jsonEsc).flatten ++ [34]

/-- Byte-lexicographic order on keys, the order encoding/json sorts
map keys in. -/
def lexLe : List Nat → List Nat → Bool
  | [], _ => true
  | _ :: _, [] => false
  | a :: as, b :: bs => if a < b then true else if b < a then false else lexLe as bs

def insertByKey {α : Type} (kv : List Nat × α) : List (List Nat × α) → List (List Nat × α)
  | [] => [kv]
  | x :: xs => if lexLe kv.1 x.1 then kv :: x :: xs else x :: insertByKey kv xs

/-- Sorts an association list by key; with the unique keys of a Go map
this is the serialization order of encoding/json. -/
def sortByKey {α : Type} (m : List (List Nat × α)) : List (List Nat × α) :=
  m.foldr insertByKey []

/-- The interface-typed values that occur in the event record map of
this encoder: strings, int64s, string slices and string-to-string
maps. -/
inductive JVal where
  | jstr (s : List Nat)
  | jint (i : Int)
  | jarr (xs : List (List Nat))
  | jobjs (m : List (List Nat × List Nat))

/-- The event working record, Go's map from string to interface. -/
abbrev JObj := List (List Nat × JVal)

/-- encoding/json rendering of one record value. -/
def jvalBytes : JVal → List Nat
  | .jstr s => jsonQuote s
  | .jint i => intDecimal i
  | .jarr xs => [91] ++ (List.intercalate [44] (xs.map jsonQuote)) ++ [93]
  | .jobjs m => [123] ++ (List.intercalate [44]
      ((sortByKey m).map fun kv => jsonQuote kv.1 ++ [58] ++ jsonQuote kv.2)) ++ [125]

/-- encoding/json rendering of the record map: keys sorted, each
rendered as quoted key, colon, value. -/
def jsonMarshalObj (m : JObj) : List Nat :=
  [123] ++ (List.intercalate [44]
    ((sortByKey m).map fun kv => jsonQuote kv.1 ++ [58] ++ jvalBytes kv.2)) ++ [125]

/-- Go map assignment on the record: replace the value of an existing
key, otherwise add the binding. -/
def setJ (m : JObj) (k : List Nat) (v : JVal) : JObj :=
  if m.any fun kv => kv.1 == k then
    m.map fun kv => if kv.1 == k then (k, v) else kv
  else m ++ [(k, v)]

def lookupJ (m : JObj) (k : List Nat) : Option JVal :=
  (m.find? fun kv => kv.1 == k).map fun kv => kv.2

/-- SpanLogJSON. Modelled from the spec: the SpanLogs document shape
is a struct marshalled with the field order traceId, spanId, logs; a
span log entry is structurally opaque to this encoder and is modelled
by its rendered JSON bytes. The document is followed by one newline. -/
def SpanLogJSON (traceId spanId : List Nat) (spanLogs : List (List Nat)) : List Nat :=
  [123] ++ jsonQuote (goStr ("traceId")) ++ [58] ++ jsonQuote traceId
    ++ [44] ++ jsonQuote (goStr ("spanId")) ++ [58] ++ jsonQuote spanId
    ++ [44] ++ jsonQuote (goStr ("logs")) ++ [58]
    ++ [91] ++ (List.intercalate [44] spanLogs) ++ [93] ++ [125] ++ [10]

/-- An event option setter. Modelled from the spec: each setter is a
function mutating the working record. The source's local alias of the
initial annotation map is observably the record's annotation entry for
setters that mutate rather than replace that map. -/
abbrev EvOption := JObj → JObj

/-- The annotation mapping read back from the record after the setters
ran. -/
def recAnnots (l : JObj) : List (List Nat × List Nat) :=
  match lookupJ l (goStr ("annotations")) with
  | some (.jobjs m) => m
  | _ => []

/-- EventLine, the proxy wire format. The source has no error return
path: the result is always ok. strconv.Quote is modelled by goQuote
below. -/
def quoteEsc (c : Nat) : List Nat :=
  if c = 34 then [92, 34]
  else if c = 92 then [92, 92]
  else if c = 10 then [92, 110]
  else if c = 13 then [92, 114]
  else if c = 9 then [92, 116]
  else if c = 7 then [92, 97]
  else if c = 8 then [92, 98]
  else if c = 11 then [92, 118]
  else if c = 12 then [92, 102]
  else if c < 32 ∨ c = 127 then [92, 120, hexDigit (c / 16), hexDigit (c % 16)]
  else [c]

/-- Model of strconv.Quote on ASCII bytes (non-ASCII printable runes
pass through in Go and here; no claim involves the non-printable
non-ASCII escapes). -/
def goQuote (s : List Nat) : List Nat := [34] ++ (s.map quoteEsc).flatten ++ [34]

def EventLine (name : List Nat) (startMillis endMillis : Int) (source : List Nat)
    (tags : TagList) (setters : List EvOption) : Except String (List Nat) :=
  let l : JObj := [(goStr ("annotations"), .jobjs [])]
  let l := setters.foldl (fun acc f => f acc) l
  let se := adjustStartEndTime startMillis endMillis
  let body := goStr ("@Event") ++ [32] ++ intDecimal se.1 ++ [32] ++ intDecimal se.2
    ++ [32] ++ goQuote name
    ++ ((recAnnots l).map fun kv => [32] ++ kv.1 ++ [61] ++ goQuote kv.2).flatten
    ++ (if source ≠ [] then goStr (" host=") ++ goQuote source else [])
    ++ (tags.map fun kv => goStr (" tag=") ++ goQuote (kv.1 ++ goStr (": ") ++ kv.2)).flatten
  .ok (body ++ [10])

/-- EventLineJSON, the API format: the record is marshalled as JSON
with startTime, endTime, tags and hosts set after the setters ran, and
no trailing newline. encoding/json cannot fail on these values, so the
result is the document itself. -/
def EventLineJSON (name : List Nat) (startMillis endMillis : Int) (source : List Nat)
    (tags : TagList) (setters : List EvOption) : List Nat :=
  let l : JObj := [(goStr ("name"), .jstr name), (goStr ("annotations"), .jobjs [])]
  let l := setters.foldl (fun acc f => f acc) l
  let se := adjustStartEndTime startMillis endMillis
  let l := setJ l (goStr ("startTime")) (.jint se.1)
  let l := setJ l (goStr ("endTime")) (.jint se.2)
  let l := if tags ≠ [] then
      setJ l (goStr ("tags")) (.jarr (tags.map fun kv => kv.1 ++ goStr (": ") ++ kv.2))
    else l
  let l := if source ≠ [] then setJ l (goStr ("hosts")) (.jarr [source]) else l
  jsonMarshalObj l

/-- The last byte of a byte list, if any. -/
def lastByte (s : List Nat) : Option Nat := s.reverse.head?

/-! ### Helper lemmas -/

theorem head?_append_left {α : Type} (x y : List α) (h : x ≠ []) :
    (x ++ y).head? = x.head? := by
  cases x with
  | nil => exact absurd rfl h
  | cons a t => rfl

theorem lastByte_concat (t : List Nat) (b : Nat) : lastByte (t ++ [b]) = some b := by
  simp [lastByte]

theorem lastByte_append_some (x y : List Nat) (d : Nat) (h : lastByte y = some d) :
    lastByte (x ++ y) = some d := by
  have hy : y.reverse ≠ [] := by
    intro hnil
    rw [lastByte, hnil] at h
    exact Option.noConfusion h
  rw [lastByte, List.reverse_append, head?_append_left _ _ hy]
  exact h

theorem lastByte_append_or (x y : List Nat) (d : Nat) (hx : lastByte x = some d)
    (hy : y = [] ∨ lastByte y = some d) : lastByte (x ++ y) = some d := by
  rcases hy with h | h
  · rw [h, List.append_nil]; exact hx
  · exact lastByte_append_some x y d h

theorem lastByte_mem (s : List Nat) (d : Nat) (h : lastByte s = some d) : d ∈ s := by
  rw [lastByte] at h
  exact List.mem_reverse.mp (List.mem_of_mem_head? h)

theorem mem_natDecimalAux (f : Nat) : ∀ n d, d ∈ natDecimalAux f n → 48 ≤ d ∧ d ≤ 57 := by
  induction f with
  | zero => intro n d h; simp [natDecimalAux] at h
  | succ f ih =>
    intro n d h
    rw [natDecimalAux] at h
    split at h
    · rename_i hlt
      simp at h
      omega
    · rcases List.mem_append.mp h with h1 | h1
      · exact ih _ _ h1
      · simp at h1
        have : n % 10 < 10 := Nat.mod_lt _ (by norm_num)
        omega

theorem natDecimalAux_ne_nil (f n : Nat) : natDecimalAux (f + 1) n ≠ [] := by
  rw [natDecimalAux]
  split <;> simp

theorem mem_natDecimal (n d : Nat) (h : d ∈ natDecimal n) : 48 ≤ d ∧ d ≤ 57 :=
  mem_natDecimalAux _ _ _ h

theorem natDecimal_ne_nil (n : Nat) : natDecimal n ≠ [] := natDecimalAux_ne_nil _ _

theorem mem_intDecimal (i : Int) (d : Nat) (h : d ∈ intDecimal i) :
    d = 45 ∨ (48 ≤ d ∧ d ≤ 57) := by
  rw [intDecimal] at h
  split at h
  · rcases List.mem_cons.mp h with h1 | h1
    · exact Or.inl h1
    · exact Or.inr (mem_natDecimal _ _ h1)
  · exact Or.inr (mem_natDecimal _ _ h)

theorem ten_not_mem_intDecimal (i : Int) : 10 ∉ intDecimal i := by
  intro h
  rcases mem_intDecimal i 10 h with h1 | h1 <;> omega

theorem intDecimal_ne_nil (i : Int) : intDecimal i ≠ [] := by
  rw [intDecimal]
  split
  · simp
  · exact natDecimal_ne_nil _

theorem lastByte_of_ne_nil (s : List Nat) (h : s ≠ []) : ∃ d, lastByte s = some d ∧ d ∈ s := by
  have hr : s.reverse ≠ [] := by simpa using h
  cases hrev : s.reverse with
  | nil => exact absurd hrev hr
  | cons a t =>
    refine ⟨a, ?_, ?_⟩
    · rw [lastByte, hrev]; rfl
    · have : a ∈ s.reverse := by rw [hrev]; exact List.mem_cons_self _ _
      exact List.mem_reverse.mp this

theorem lastByte_natDecimal (n : Nat) :
    ∃ d, lastByte (natDecimal n) = some d ∧ 48 ≤ d ∧ d ≤ 57 := by
  obtain ⟨d, hd, hmem⟩ := lastByte_of_ne_nil _ (natDecimal_ne_nil n)
  exact ⟨d, hd, mem_natDecimal _ _ hmem⟩

theorem lastByte_intDecimal (i : Int) :
    ∃ d, lastByte (intDecimal i) = some d ∧ 48 ≤ d ∧ d ≤ 57 := by
  rw [intDecimal]
  split
  · obtain ⟨d, hd, hdig⟩ := lastByte_natDecimal (Int.natAbs i)
    refine ⟨d, ?_, hdig⟩
    rw [lastByte, List.reverse_cons]
    have hnn : (natDecimal (Int.natAbs i)).reverse ≠ [] := by
      simpa using natDecimal_ne_nil (Int.natAbs i)
    rw [head?_append_left _ _ hnn]
    exact hd
  · exact lastByte_natDecimal _

theorem mem_replAll (s : List Nat) (b : Nat) (r : List Nat) (d : Nat)
    (h : d ∈ replAll s b r) : d ∈ r ∨ (d ∈ s ∧ d ≠ b) := by
  rw [replAll] at h
  rcases List.mem_flatten.mp h with ⟨l, hl, hdl⟩
  rcases List.mem_map.mp hl with ⟨c, hc, hcl⟩
  by_cases hcb : c = b
  · rw [if_pos hcb] at hcl
    exact Or.inl (hcl ▸ hdl)
  · rw [if_neg hcb] at hcl
    rw [← hcl] at hdl
    simp at hdl
    exact Or.inr ⟨hdl ▸ hc, hdl ▸ hcb⟩

theorem ten_not_mem_sanitizeValue (s : List Nat) : 10 ∉ sanitizeValue s := by
  intro h
  rw [sanitizeValue] at h
  simp only [List.mem_append, List.mem_singleton] at h
  rcases h with (h | h) | h
  · simp at h
  · rcases mem_replAll _ _ _ _ h with h1 | h1
    · simp at h1
    · exact h1.2 rfl
  · simp at h

theorem lastByte_sanitizeValue (s : List Nat) : lastByte (sanitizeValue s) = some 34 := by
  unfold sanitizeValue
  exact lastByte_concat _ _

theorem sanByte_ne_ten (c : Nat) : sanByte c ≠ 10 := by
  rw [sanByte]
  split
  · rename_i h
    rcases h with h | h | h | h <;> omega
  · omega

theorem ten_not_mem_sanitizeHead (s : List Nat) : 10 ∉ (sanitizeHead s).1 := by
  simp only [sanitizeHead]
  split <;> split <;> simp [deltaPfx, altDeltaPfx]

theorem ten_not_mem_sanitizeInternal (s out : List Nat)
    (h : sanitizeInternal s = some out) : 10 ∉ out := by
  intro hmem
  rw [sanitizeInternal] at h
  split at h
  · split at h
    · rw [Option.some.injEq] at h
      subst h
      rcases List.mem_append.mp hmem with hm | hm2
      · rcases List.mem_append.mp hm with hm1 | hm1
        · exact ten_not_mem_sanitizeHead s hm1
        · simp at hm1
      · rcases List.mem_map.mp hm2 with ⟨c, _, hc⟩
        exact sanByte_ne_ten c hc
    · rw [Option.some.injEq] at h
      subst h
      rcases List.mem_append.mp hmem with hm | hm
      · exact ten_not_mem_sanitizeHead s hm
      · rcases List.mem_map.mp hm with ⟨c, _, hc⟩
        exact sanByte_ne_ten c hc
  · exact Option.noConfusion h

theorem ten_not_mem_floatBytes (i : GoFloat) : 10 ∉ floatBytes i :=
  ten_not_mem_intDecimal i

theorem ten_not_mem_granBytes (g : Granularity) : 10 ∉ granBytes g := by
  cases g <;> decide

theorem ten_not_mem_centroidPairBytes (c : Centroid) : 10 ∉ centroidPairBytes c := by
  intro h
  rw [centroidPairBytes] at h
  rcases List.mem_append.mp h with h1 | h1
  · rcases List.mem_append.mp h1 with h2 | h2
    · rcases List.mem_append.mp h2 with h3 | h3
      · exact absurd h3 (by decide)
      · exact ten_not_mem_intDecimal _ h3
    · simp at h2
  · exact ten_not_mem_floatBytes _ h1

theorem ten_not_mem_centroidsBytes (cs : List Centroid) : 10 ∉ centroidsBytes cs := by
  intro h
  rw [centroidsBytes] at h
  rcases List.mem_flatten.mp h with ⟨l, hl, hml⟩
  rcases List.mem_map.mp hl with ⟨c, _, rfl⟩
  exact ten_not_mem_centroidPairBytes c hml

theorem metricTags_ok (tags : TagList) :
    ∀ bs, metricTagsBytes tags = some (.ok bs) →
      10 ∉ bs ∧ (bs = [] ∨ lastByte bs = some 34) := by
  induction tags with
  | nil =>
    intro bs h
    rw [metricTagsBytes, Option.some.injEq, Except.ok.injEq] at h
    subst h
    exact ⟨by simp, Or.inl rfl⟩
  | cons t rest ih =>
    obtain ⟨k, v⟩ := t
    intro bs h
    rw [metricTagsBytes] at h
    split at h
    · simp at h
    · cases hk : sanitizeInternal k with
      | none => rw [hk] at h; exact Option.noConfusion h
      | some sk =>
        rw [hk] at h
        cases hr : metricTagsBytes rest with
        | none => rw [hr] at h; exact Option.noConfusion h
        | some r =>
          cases r with
          | error e => rw [hr] at h; simp at h
          | ok bs0 =>
            rw [hr] at h
            rw [Option.some.injEq, Except.ok.injEq] at h
            subst h
            obtain ⟨ih1, ih2⟩ := ih bs0 hr
            constructor
            · intro hmem
              rcases List.mem_append.mp hmem with h1 | h1
              · rcases List.mem_append.mp h1 with h2 | h2
                · rcases List.mem_append.mp h2 with h3 | h3
                  · rcases List.mem_append.mp h3 with h4 | h4
                    · simp at h4
                    · exact ten_not_mem_sanitizeInternal k sk hk h4
                  · simp at h3
                · exact ten_not_mem_sanitizeValue v h2
              · exact ih1 h1
            · right
              rcases ih2 with h2 | h2
              · subst h2
                rw [List.append_nil]
                exact lastByte_append_some _ _ _ (lastByte_sanitizeValue v)
              · exact lastByte_append_some _ _ _ h2

theorem histoTags_ok (tags : TagList) :
    ∀ bs, histoTagsBytes tags = some (.ok bs) → 10 ∉ bs := by
  induction tags with
  | nil =>
    intro bs h
    rw [histoTagsBytes, Option.some.injEq, Except.ok.injEq] at h
    subst h
    simp
  | cons t rest ih =>
    obtain ⟨k, v⟩ := t
    intro bs h
    rw [histoTagsBytes] at h
    split at h
    · simp at h
    · cases hk : sanitizeInternal k with
      | none => rw [hk] at h; exact Option.noConfusion h
      | some sk =>
        rw [hk] at h
        cases hr : histoTagsBytes rest with
        | none => rw [hr] at h; exact Option.noConfusion h
        | some r =>
          cases r with
          | error e => rw [hr] at h; simp at h
          | ok bs0 =>
            rw [hr] at h
            rw [Option.some.injEq, Except.ok.injEq] at h
            subst h
            intro hmem
            rcases List.mem_append.mp hmem with h1 | h1
            · rcases List.mem_append.mp h1 with h2 | h2
              · rcases List.mem_append.mp h2 with h3 | h3
                · rcases List.mem_append.mp h3 with h4 | h4
                  · simp at h4
                  · exact ten_not_mem_sanitizeInternal k sk hk h4
                · simp at h3
              · exact ten_not_mem_sanitizeValue v h2
            · exact ih bs0 hr h1

theorem histoTags_total (tags : TagList)
    (h : ∀ tg ∈ tags, tg.2 ≠ [] ∧ sanitizeInternal tg.1 ≠ none) :
    ∃ bs, histoTagsBytes tags = some (.ok bs) := by
  induction tags with
  | nil => exact ⟨[], rfl⟩
  | cons t rest ih =>
    obtain ⟨k, v⟩ := t
    obtain ⟨hv, hk⟩ := h (k, v) (List.mem_cons_self _ _)
    obtain ⟨bs0, hbs0⟩ := ih fun tg htg => h tg (List.mem_cons_of_mem _ htg)
    cases hks : sanitizeInternal k with
    | none => exact absurd hks hk
    | some sk =>
      refine ⟨[32, 34] ++ sk ++ [34, 61] ++ sanitizeValue v ++ bs0, ?_⟩
      rw [histoTagsBytes, if_neg hv, hks, hbs0]

theorem int64wrap_eq_self (x : Int) (h1 : -(2 ^ 63) ≤ x) (h2 : x < 2 ^ 63) :
    int64wrap x = x := by
  rw [int64wrap]
  have : (x + 2 ^ 63) % 2 ^ 64 = x + 2 ^ 63 := Int.emod_eq_of_lt (by omega) (by omega)
  omega

theorem addCentroid_of_not_mem (acc : List Centroid) (c : Centroid)
    (h : ∀ a ∈ acc, a.value ≠ c.value) : addCentroid acc c = acc ++ [c] := by
  induction acc with
  | nil => rfl
  | cons a rest ih =>
    rw [addCentroid]
    rw [if_neg (h a (List.mem_cons_self _ _))]
    rw [ih fun x hx => h x (List.mem_cons_of_mem _ hx)]
    rfl

theorem foldl_addCentroid (cs : List Centroid) :
    ∀ acc, (∀ a ∈ acc, ∀ b ∈ cs, a.value ≠ b.value) →
      cs.Pairwise (fun a b => a.value ≠ b.value) → cs.foldl addCentroid acc = acc ++ cs := by
  induction cs with
  | nil => intro acc _ _; simp
  | cons c rest ih =>
    intro acc hdisj hpw
    rw [List.foldl_cons]
    rw [addCentroid_of_not_mem acc c fun a ha => hdisj a ha c (List.mem_cons_self _ _)]
    rw [ih (acc ++ [c]) ?_ (List.Pairwise.of_cons hpw)]
    · simp
    · intro a ha b hb
      rcases List.mem_append.mp ha with h1 | h1
      · exact hdisj a h1 b (List.mem_cons_of_mem _ hb)
      · simp at h1
        subst h1
        exact (List.pairwise_cons.mp hpw).1 b hb

theorem lastByte_goQuote (s : List Nat) : lastByte (goQuote s) = some 34 := by
  rw [goQuote]; exact lastByte_concat _ _

theorem lastByte_flatten_or (L : List (List Nat)) (h : ∀ x ∈ L, lastByte x = some 34) :
    L.flatten = [] ∨ lastByte L.flatten = some 34 := by
  induction L with
  | nil => exact Or.inl rfl
  | cons a t ih =>
    rw [List.flatten_cons]
    rcases ih (fun x hx => h x (List.mem_cons_of_mem _ hx)) with h1 | h1
    · rw [h1, List.append_nil]
      exact Or.inr (h a (List.mem_cons_self _ _))
    · exact Or.inr (lastByte_append_some _ _ _ h1)

theorem metricLine_ok_shape (name : List Nat) (v : GoFloat) (ts : Int) (src : List Nat)
    (tags : TagList) (d : List Nat) (out : List Nat)
    (h : MetricLine name v ts src tags d = some (.ok out)) :
    ∃ t, out = t ++ [10] ∧ lastByte t = some 34 := by
  rw [MetricLine] at h
  split at h
  · simp at h
  · cases hn : sanitizeInternal name with
    | none => rw [hn] at h; exact Option.noConfusion h
    | some sname =>
      rw [hn] at h
      cases ht : metricTagsBytes tags with
      | none => rw [ht] at h; exact Option.noConfusion h
      | some r =>
        cases r with
        | error e => rw [ht] at h; simp at h
        | ok tagBytes =>
          rw [ht] at h
          rw [Option.some.injEq, Except.ok.injEq] at h
          refine ⟨_, h.symm, ?_⟩
          obtain ⟨_, h2⟩ := metricTags_ok tags tagBytes ht
          rcases h2 with h2 | h2
          · subst h2
            rw [List.append_nil]
            exact lastByte_append_some _ _ _ (lastByte_sanitizeValue _)
          · exact lastByte_append_some _ _ _ h2

theorem spanLogJSON_shape (t s : List Nat) (logs : List (List Nat)) :
    ∃ t2, SpanLogJSON t s logs = t2 ++ [10] ∧ lastByte t2 = some 125 := by
  refine ⟨_, rfl, ?_⟩
  exact lastByte_concat _ _

theorem eventLineJSON_shape (name : List Nat) (sm em : Int) (src : List Nat)
    (tags : TagList) (setters : List EvOption) :
    lastByte (EventLineJSON name sm em src tags setters) = some 125 := by
  exact lastByte_concat _ _

theorem eventLine_ok_shape (name : List Nat) (sm em : Int) (src : List Nat)
    (tags : TagList) (setters : List EvOption) (out : List Nat)
    (h : EventLine name sm em src tags setters = .ok out) :
    ∃ t2, out = t2 ++ [10] ∧ lastByte t2 = some 34 := by
  rw [EventLine, Except.ok.injEq] at h
  refine ⟨_, h.symm, ?_⟩
  refine lastByte_append_or _ _ _ (lastByte_append_or _ _ _ (lastByte_append_or _ _ _ ?_ ?_) ?_) ?_
  · exact lastByte_append_some _ _ _ (lastByte_goQuote _)
  · refine lastByte_flatten_or _ ?_
    intro x hx
    rcases List.mem_map.mp hx with ⟨kv, _, rfl⟩
    exact lastByte_append_some _ _ _ (lastByte_goQuote _)
  · split
    · exact Or.inr (lastByte_append_some _ _ _ (lastByte_goQuote _))
    · exact Or.inl rfl
  · refine lastByte_flatten_or _ ?_
    intro x hx
    rcases List.mem_map.mp hx with ⟨kv, _, rfl⟩
    exact lastByte_append_some _ _ _ (lastByte_goQuote _)

theorem spanLine_ok_shape (name : List Nat) (st dur : Int) (src tid sid : List Nat)
    (par ff : List (List Nat)) (tags : TagList) (n : Nat) (d : List Nat) (out : List Nat)
    (h : SpanLine name st dur src tid sid par ff tags n d = some (.ok out)) :
    ∃ t2, out = t2 ++ [10] ∧ ∃ dg, lastByte t2 = some dg ∧ 48 ≤ dg ∧ dg ≤ 57 := by
  rw [SpanLine] at h
  split at h
  · simp at h
  · split at h
    · simp at h
    · split at h
      · simp at h
      · cases htg : spanTagsBytes tags with
        | none => rw [htg] at h; exact Option.noConfusion h
        | some r =>
          cases r with
          | error e => rw [htg] at h; simp at h
          | ok tagBytes =>
            rw [htg] at h
            rw [Option.some.injEq, Except.ok.injEq] at h
            refine ⟨_, h.symm, ?_⟩
            obtain ⟨dg, hd, h1, h2⟩ := lastByte_intDecimal dur
            exact ⟨dg, lastByte_append_some _ _ _ hd, h1, h2⟩

theorem histoBody_lines (L : List (Granularity × Bool)) (body : List Nat) (hb : 10 ∉ body) :
    ∃ bodies : List (List Nat),
      (L.map fun g => granBytes g.1 ++ body ++ [10]).flatten
        = (bodies.map fun b => b ++ [10]).flatten ∧
      ∀ b ∈ bodies, 10 ∉ b := by
  refine ⟨L.map fun g => granBytes g.1 ++ body, ?_, ?_⟩
  · rw [List.map_map]
    rfl
  · intro b hbm
    rcases List.mem_map.mp hbm with ⟨g, _, rfl⟩
    intro hmem
    rcases List.mem_append.mp hmem with h1 | h1
    · exact ten_not_mem_granBytes _ h1
    · exact hb h1

theorem histoLine_ok_shape (name : List Nat) (cs : List Centroid)
    (hgs : List (Granularity × Bool)) (ts : Int) (src : List Nat) (tags : TagList)
    (d : List Nat) (out : List Nat)
    (h : HistoLine name cs hgs ts src tags d = some (.ok out)) :
    ∃ bodies : List (List Nat), out = (bodies.map fun b => b ++ [10]).flatten ∧
      ∀ b ∈ bodies, 10 ∉ b := by
  rw [HistoLine] at h
  split at h
  · simp at h
  · split at h
    · simp at h
    · split at h
      · simp at h
      · cases hn : sanitizeInternal name with
        | none => rw [hn] at h; exact Option.noConfusion h
        | some sname =>
          rw [hn] at h
          cases ht : histoTagsBytes tags with
          | none => rw [ht] at h; exact Option.noConfusion h
          | some r =>
            cases r with
            | error e => rw [ht] at h; simp at h
            | ok tagBytes =>
              rw [ht] at h
              rw [Option.some.injEq, Except.ok.injEq] at h
              have hb : 10 ∉ (if ts ≠ 0 then [32] ++ intDecimal ts else [])
                  ++ centroidsBytes cs ++ [32, 34] ++ sname ++ [34]
                  ++ goStr (" source=") ++ sanitizeValue (orDefault src d) ++ tagBytes := by
                intro hmem
                rcases List.mem_append.mp hmem with h1 | h1
                · rcases List.mem_append.mp h1 with h2 | h2
                  · rcases List.mem_append.mp h2 with h3 | h3
                    · rcases List.mem_append.mp h3 with h4 | h4
                      · rcases List.mem_append.mp h4 with h5 | h5
                        · rcases List.mem_append.mp h5 with h6 | h6
                          · rcases List.mem_append.mp h6 with h7 | h7
                            · by_cases hts : ts ≠ 0
                              · rw [if_pos hts] at h7
                                rcases List.mem_append.mp h7 with h8 | h8
                                · simp at h8
                                · exact ten_not_mem_intDecimal _ h8
                              · rw [if_neg hts] at h7
                                simp at h7
                            · exact ten_not_mem_centroidsBytes _ h7
                          · simp at h6
                        · exact ten_not_mem_sanitizeInternal _ _ hn h5
                      · simp at h4
                    · exact absurd h3 (by decide)
                  · exact ten_not_mem_sanitizeValue _ h2
                · exact histoTags_ok tags tagBytes ht h1
              obtain ⟨bodies, heq, hm⟩ := histoBody_lines (hgs.filter fun g => g.2) _ hb
              exact ⟨bodies, h.symm.trans heq, hm⟩

theorem spanTags_err_imp (tags : TagList) :
    ∀ e, spanTagsBytes tags = some (.error e) → ∃ tg ∈ tags, tg.1 = [] ∨ tg.2 = [] := by
  induction tags with
  | nil => intro e h; rw [spanTagsBytes] at h; simp at h
  | cons t rest ih =>
    obtain ⟨k, v⟩ := t
    intro e h
    rw [spanTagsBytes] at h
    split at h
    · rename_i hblank
      exact ⟨(k, v), List.mem_cons_self _ _, hblank⟩
    · cases hk : sanitizeInternal k with
      | none => rw [hk] at h; exact Option.noConfusion h
      | some sk =>
        rw [hk] at h
        cases hr : spanTagsBytes rest with
        | none => rw [hr] at h; exact Option.noConfusion h
        | some r =>
          cases r with
          | error e2 =>
            obtain ⟨tg, htg, hb⟩ := ih e2 hr
            exact ⟨tg, List.mem_cons_of_mem _ htg, hb⟩
          | ok bs0 => rw [hr] at h; simp at h

theorem spanTags_spec (tags : TagList)
    (hsan : ∀ tg ∈ tags, tg.1 ≠ [] → sanitizeInternal tg.1 ≠ none) :
    spanTagsBytes tags ≠ none ∧
      ((∃ tg ∈ tags, tg.1 = [] ∨ tg.2 = []) → ∃ e, spanTagsBytes tags = some (.error e)) := by
  induction tags with
  | nil =>
    constructor
    · rw [spanTagsBytes]; simp
    · intro h; simp at h
  | cons t rest ih =>
    obtain ⟨k, v⟩ := t
    obtain ⟨ih1, ih2⟩ := ih fun tg htg => hsan tg (List.mem_cons_of_mem _ htg)
    by_cases hblank : k = [] ∨ v = []
    · constructor
      · rw [spanTagsBytes, if_pos hblank]; simp
      · intro _
        refine ⟨"span tag key/value cannot be blank", ?_⟩
        rw [spanTagsBytes, if_pos hblank]
    · have hk : k ≠ [] := fun hknil => hblank (Or.inl hknil)
      cases hks : sanitizeInternal k with
      | none => exact absurd hks (hsan (k, v) (List.mem_cons_self _ _) hk)
      | some sk =>
        constructor
        · intro hnone
          rw [spanTagsBytes, if_neg hblank, hks] at hnone
          cases hr : spanTagsBytes rest with
          | none => exact ih1 hr
          | some r =>
            rw [hr] at hnone
            cases r <;> simp at hnone
        · intro hex
          rcases hex with ⟨tg, htg, hb⟩
          rcases List.mem_cons.mp htg with heq | htg2
          · subst heq
            exact absurd hb hblank
          · obtain ⟨e, he⟩ := ih2 ⟨tg, htg2, hb⟩
            refine ⟨e, ?_⟩
            rw [spanTagsBytes, if_neg hblank, hks, he]

theorem isUUIDFormat_iff (u : List Nat) :
    isUUIDFormat u = true ↔
      u.length = 36 ∧ ∀ i, i < u.length →
        ((i = 8 ∨ i = 13 ∨ i = 18 ∨ i = 23) → u.getD i 0 = 45) ∧
        (¬(i = 8 ∨ i = 13 ∨ i = 18 ∨ i = 23) →
          (48 ≤ u.getD i 0 ∧ u.getD i 0 ≤ 57) ∨ (97 ≤ u.getD i 0 ∧ u.getD i 0 ≤ 102) ∨
          (65 ≤ u.getD i 0 ∧ u.getD i 0 ≤ 70)) := by
  rw [isUUIDFormat]
  constructor
  · intro h
    split at h
    · exact absurd h (by simp)
    · rename_i hlen
      have hlen2 : u.length = 36 := not_ne_iff.mp hlen
      refine ⟨hlen2, ?_⟩
      intro i hi
      have hall := List.all_eq_true.mp h
      have hx := hall i (List.mem_range.mpr hi)
      constructor
      · intro hio
        rw [if_pos hio] at hx
        exact beq_iff_eq.mp hx
      · intro hio
        rw [if_neg hio] at hx
        rw [isHexB] at hx
        exact of_decide_eq_true hx
  · intro hc
    obtain ⟨hlen, hall⟩ := hc
    rw [if_neg (not_ne_iff.mpr hlen)]
    apply List.all_eq_true.mpr
    intro i hi
    have hi2 := List.mem_range.mp hi
    obtain ⟨h1, h2⟩ := hall i hi2
    by_cases hio : i = 8 ∨ i = 13 ∨ i = 18 ∨ i = 23
    · rw [if_pos hio]
      exact beq_iff_eq.mpr (h1 hio)
    · rw [if_neg hio]
      rw [isHexB]
      exact decide_eq_true (h2 hio)

theorem spanLine_err_imp (name : List Nat) (st dur : Int) (src tid sid : List Nat)
    (par ff : List (List Nat)) (tags : TagList) (n : Nat) (d : List Nat) (e : String)
    (h : SpanLine name st dur src tid sid par ff tags n d = some (.error e)) :
    name = [] ∨ isUUIDFormat tid = false ∨ isUUIDFormat sid = false ∨
      ∃ tg ∈ tags, tg.1 = [] ∨ tg.2 = [] := by
  rw [SpanLine] at h
  split at h
  · rename_i hn
    exact Or.inl hn
  · split at h
    · rename_i hu
      exact Or.inr (Or.inl hu)
    · split at h
      · rename_i hu
        exact Or.inr (Or.inr (Or.inl hu))
      · cases htg : spanTagsBytes tags with
        | none => rw [htg] at h; exact Option.noConfusion h
        | some r =>
          cases r with
          | error e2 => exact Or.inr (Or.inr (Or.inr (spanTags_err_imp tags e2 htg)))
          | ok tb => rw [htg] at h; simp at h

theorem spanLine_err_of (name : List Nat) (st dur : Int) (src tid sid : List Nat)
    (par ff : List (List Nat)) (tags : TagList) (n : Nat) (d : List Nat)
    (hsan : ∀ tg ∈ tags, tg.1 ≠ [] → sanitizeInternal tg.1 ≠ none)
    (hc : name = [] ∨ isUUIDFormat tid = false ∨ isUUIDFormat sid = false ∨
      ∃ tg ∈ tags, tg.1 = [] ∨ tg.2 = []) :
    ∃ e, SpanLine name st dur src tid sid par ff tags n d = some (.error e) := by
  rw [SpanLine]
  by_cases h1 : name = []
  · rw [if_pos h1]
    exact ⟨_, rfl⟩
  · rw [if_neg h1]
    by_cases h2 : isUUIDFormat tid = false
    · rw [if_pos h2]
      exact ⟨_, rfl⟩
    · rw [if_neg h2]
      by_cases h3 : isUUIDFormat sid = false
      · rw [if_pos h3]
        exact ⟨_, rfl⟩
      · rw [if_neg h3]
        rcases hc with hc | hc | hc | hc
        · exact absurd hc h1
        · exact absurd hc h2
        · exact absurd hc h3
        · obtain ⟨e, he⟩ := (spanTags_spec tags hsan).2 hc
          rw [he]
          exact ⟨e, rfl⟩

/-! ### Claim theorems -/

/-- Claim C1: MetricLine called with name cpu.usage, value 42422.0,
timestamp 1533531013, empty source, a datacenter=dc1 tag and default
source localhost succeeds and returns exactly the quoted line with
field order name, value, timestamp, source, tags, the empty source
replaced by the default source, and a single trailing newline. -/
theorem wf_c1_metricLine_example :
    MetricLine (goStr ("cpu.usage")) 42422 1533531013 []
        [(goStr ("datacenter"), goStr ("dc1"))] (goStr ("localhost"))
      = some (.ok (goStr
        ("\"cpu.usage\" 42422 1533531013 source=\"localhost\" \"datacenter\"=\"dc1\"\n"))) :=
  rfl

/-- Claim C2: contrary to the claim that identifier sanitization is
total, sanitizeInternal/sanitizeInternalSb reach the unguarded index
str[skipHead] and panic (modelled by none) on the empty string and on
a string that is exactly a delta-prefix marker; the claim and the
spec's never-errors policy are right, the code is wrong there. -/
theorem wf_c2_sanitize_panics :
    sanitizeInternal (goStr ("")) = none ∧
    sanitizeInternal deltaPfx = none ∧
    sanitizeInternal altDeltaPfx = none :=
  ⟨rfl, rfl, rfl⟩

/-- Claim C3: for every non-empty input with no delta and no tilde
prefix, identifier sanitization maps each byte to itself exactly when
it lies in [44,57] (",-./0-9"), [65,90], [97,122] or is 95, and to 45
("-") otherwise; sanitizing "my metric!" yields "my-metric-". -/
theorem wf_c3_sanitize_charset :
    (∀ bs : List Nat, bs ≠ [] → deltaPfx.isPrefixOf bs = false →
      altDeltaPfx.isPrefixOf bs = false → bs.head? ≠ some 126 →
      sanitizeInternal bs = some (bs.map fun c =>
        if (44 ≤ c ∧ c ≤ 57) ∨ (65 ≤ c ∧ c ≤ 90) ∨ (97 ≤ c ∧ c ≤ 122) ∨ c = 95
        then c else 45)) ∧
    sanitizeInternal (goStr ("my metric!")) = some (goStr ("my-metric-")) := by
  refine ⟨?_, by rfl⟩
  intro bs hne h1 h2 h3
  have hh : sanitizeHead bs = ([], 0) := by
    rw [sanitizeHead]
    simp [h1, h2]
  cases bs with
  | nil => exact absurd rfl hne
  | cons a t =>
    have ha : a ≠ 126 := by
      intro hc
      exact h3 (by rw [hc]; rfl)
    rw [sanitizeInternal, hh]
    simp [ha, sanByte]

/-- Witness for C3 at the concrete input "my metric!". -/
theorem wf_c3_witness :
    sanitizeInternal (goStr ("my metric!")) = some ((goStr ("my metric!")).map fun c =>
      if (44 ≤ c ∧ c ≤ 57) ∨ (65 ≤ c ∧ c ≤ 90) ∨ (97 ≤ c ∧ c ≤ 122) ∨ c = 95
      then c else 45) :=
  wf_c3_sanitize_charset.1 (goStr ("my metric!")) (by decide) (by decide) (by decide)
    (by decide)

/-- Claim C4: HistoLine errors on an empty centroid sequence (with the
exact error text) and on an empty granularity mapping, but succeeds
with the empty output when the granularity mapping is non-empty and
every flag is false (with the other inputs valid). -/
theorem wf_c4_histoLine_preconditions (name : List Nat) (cs : List Centroid)
    (hgs : List (Granularity × Bool)) (ts : Int) (src : List Nat) (tags : TagList)
    (d : List Nat) (hname : name ≠ []) :
    (cs = [] → HistoLine name cs hgs ts src tags d
        = some (.error ("distribution should have at least one centroid"))) ∧
    (cs ≠ [] → hgs = [] → ∃ e, HistoLine name cs hgs ts src tags d = some (.error e)) ∧
    (cs ≠ [] → hgs ≠ [] → (∀ g ∈ hgs, g.2 = false) →
      sanitizeInternal name ≠ none →
      (∀ tg ∈ tags, tg.2 ≠ [] ∧ sanitizeInternal tg.1 ≠ none) →
      HistoLine name cs hgs ts src tags d = some (.ok [])) := by
  refine ⟨?_, ?_, ?_⟩
  · intro hcs
    rw [HistoLine, if_neg hname, if_pos hcs]
  · intro hcs hhgs
    rw [HistoLine, if_neg hname, if_neg hcs, if_pos hhgs]
    exact ⟨_, rfl⟩
  · intro hcs hhgs hflags hsn htags
    cases hn : sanitizeInternal name with
    | none => exact absurd hn hsn
    | some sname =>
      obtain ⟨bs, hbs⟩ := histoTags_total tags htags
      rw [HistoLine, if_neg hname, if_neg hcs, if_neg hhgs, hn, hbs]
      have hf : hgs.filter (fun g => g.2) = [] := by
        rw [List.filter_eq_nil_iff]
        intro g hg
        simp [hflags g hg]
      rw [hf]
      rfl

/-- Witness for C4: the centroid-error case and the
all-granularities-disabled empty-success case at concrete inputs. -/
theorem wf_c4_witness :
    HistoLine (goStr ("h")) [] [(Granularity.minute, true)] 0 (goStr ("s")) [] []
      = some (.error ("distribution should have at least one centroid")) ∧
    HistoLine (goStr ("h")) [⟨1, 2⟩] [(Granularity.minute, false)] 0 (goStr ("s")) [] []
      = some (.ok []) :=
  ⟨(wf_c4_histoLine_preconditions (goStr ("h")) [] [(Granularity.minute, true)] 0
      (goStr ("s")) [] [] (by decide)).1 rfl,
   (wf_c4_histoLine_preconditions (goStr ("h")) [⟨1, 2⟩] [(Granularity.minute, false)] 0
      (goStr ("s")) [] [] (by decide)).2.2 (by decide) (by decide) (by decide) (by decide)
      (by decide)⟩

/-- Claim C5 (amended): provided no non-blank span tag key makes the
sanitizer panic, SpanLine returns an error exactly when the name is
empty, a trace or span id fails UUID validation, or some tag has a
blank key or value; a byte string passes isUUIDFormat exactly when it
has 36 bytes with a dash at indices 8, 13, 18 and 23 and a
case-insensitive hex digit elsewhere, accepting the example UUID and
rejecting it with a hyphen removed or a non-hex byte substituted. -/
theorem wf_c5_spanLine_errors :
    (∀ (name : List Nat) (st dur : Int) (src tid sid : List Nat)
      (par ff : List (List Nat)) (tags : TagList) (n : Nat) (d : List Nat),
      (∀ tg ∈ tags, tg.1 ≠ [] → sanitizeInternal tg.1 ≠ none) →
      ((∃ e, SpanLine name st dur src tid sid par ff tags n d = some (.error e)) ↔
        (name = [] ∨ isUUIDFormat tid = false ∨ isUUIDFormat sid = false ∨
          ∃ tg ∈ tags, tg.1 = [] ∨ tg.2 = []))) ∧
    (∀ u : List Nat, isUUIDFormat u = true ↔
      u.length = 36 ∧ ∀ i, i < u.length →
        ((i = 8 ∨ i = 13 ∨ i = 18 ∨ i = 23) → u.getD i 0 = 45) ∧
        (¬(i = 8 ∨ i = 13 ∨ i = 18 ∨ i = 23) →
          (48 ≤ u.getD i 0 ∧ u.getD i 0 ≤ 57) ∨ (97 ≤ u.getD i 0 ∧ u.getD i 0 ≤ 102) ∨
          (65 ≤ u.getD i 0 ∧ u.getD i 0 ≤ 70))) ∧
    isUUIDFormat (goStr ("7b3bf470-9456-11e8-9eb6-529269fb1459")) = true ∧
    isUUIDFormat (goStr ("7b3bf470-9456-11e8-9eb6529269fb1459")) = false ∧
    isUUIDFormat (goStr ("7b3bf470-9456-11e8-9eb6-529269fb145g")) = false := by
  refine ⟨?_, isUUIDFormat_iff, by decide, by decide, by decide⟩
  intro name st dur src tid sid par ff tags n d hsan
  constructor
  · rintro ⟨e, he⟩
    exact spanLine_err_imp name st dur src tid sid par ff tags n d e he
  · exact spanLine_err_of name st dur src tid sid par ff tags n d hsan

/-- Counterexample for C5 as stated: with valid name and ids and a tag
list that holds a delta-marker-only key before a blank key, a blank
tag key is present but SpanLine panics (none) instead of returning an
error, so the claimed equivalence fails without the amendment. -/
theorem wf_c5_counterexample :
    SpanLine (goStr ("op")) 1 2 (goStr ("s"))
        (goStr ("7b3bf470-9456-11e8-9eb6-529269fb1459"))
        (goStr ("7b3bf470-9456-11e8-9eb6-529269fb1459"))
        [] [] [(deltaPfx, goStr ("v")), ([], goStr ("x"))] 0 (goStr ("d")) = none ∧
    (∃ tg ∈ [(deltaPfx, goStr ("v")), (([] : List Nat), goStr ("x"))],
      tg.1 = ([] : List Nat) ∨ tg.2 = ([] : List Nat)) :=
  ⟨rfl, by decide⟩

/-- Witness for C5 at a concrete input with a blank tag key. -/
theorem wf_c5_witness :
    ∃ e, SpanLine (goStr ("op")) 1 2 (goStr ("s"))
        (goStr ("7b3bf470-9456-11e8-9eb6-529269fb1459"))
        (goStr ("7b3bf470-9456-11e8-9eb6-529269fb1459"))
        [] [] [([], goStr ("x"))] 0 (goStr ("d")) = some (.error e) :=
  (wf_c5_spanLine_errors.1 (goStr ("op")) 1 2 (goStr ("s"))
      (goStr ("7b3bf470-9456-11e8-9eb6-529269fb1459"))
      (goStr ("7b3bf470-9456-11e8-9eb6-529269fb1459"))
      [] [] [([], goStr ("x"))] 0 (goStr ("d")) (by decide)).mpr
    (Or.inr (Or.inr (Or.inr ⟨(([] : List Nat), goStr ("x")),
      List.mem_cons_self _ _, Or.inl rfl⟩)))

/-- Claim C6 (amended): adjustStartEndTime scales a start value by
1000 only when it is strictly below 999999999999 (a start equal to
999999999999 is left unchanged, unlike an end value, which is scaled
when less than or equal); a zero end then becomes start + 1; in
particular adjustStartEndTime 1533531013 0 = (1533531013000,
1533531013001). -/
theorem wf_c6_adjustStartEndTime :
    (∀ s e : Int, 0 ≤ s → s < 999999999999 → 0 < e → e ≤ 999999999999 →
      adjustStartEndTime s e = (s * 1000, e * 1000)) ∧
    (∀ s : Int, 0 ≤ s → s < 999999999999 →
      adjustStartEndTime s 0 = (s * 1000, s * 1000 + 1)) ∧
    (∀ s e : Int, 999999999999 ≤ s → 999999999999 < e → adjustStartEndTime s e = (s, e)) ∧
    adjustStartEndTime 1533531013 0 = (1533531013000, 1533531013001) := by
  refine ⟨?_, ?_, ?_, by decide⟩
  · intro s e hs1 hs2 he1 he2
    rw [adjustStartEndTime]
    rw [if_pos hs2, if_pos he2]
    rw [int64wrap_eq_self (s * 1000) (by omega) (by omega)]
    rw [int64wrap_eq_self (e * 1000) (by omega) (by omega)]
    rw [if_neg (by omega : ¬e * 1000 = 0)]
  · intro s hs1 hs2
    rw [adjustStartEndTime]
    rw [if_pos hs2, if_pos (by omega : (0 : Int) ≤ 999999999999)]
    rw [int64wrap_eq_self (s * 1000) (by omega) (by omega)]
    rw [show int64wrap (0 * 1000) = 0 by decide]
    rw [if_pos rfl]
    rw [int64wrap_eq_self (s * 1000 + 1) (by omega) (by omega)]
  · intro s e hs he
    rw [adjustStartEndTime]
    rw [if_neg (by omega : ¬s < 999999999999), if_neg (by omega : ¬e ≤ 999999999999)]
    rw [if_neg (by omega : ¬e = 0)]

/-- Counterexample for C6 as stated: a start value equal to
999999999999 is not multiplied by 1000, although the claim says every
value less than or equal to 999999999999 is, for start as for end. -/
theorem wf_c6_counterexample :
    adjustStartEndTime 999999999999 1 = (999999999999, 1000) ∧
    (999999999999 : Int) * 1000 ≠ 999999999999 :=
  ⟨rfl, by decide⟩

/-- Witness for C6 at a concrete seconds-resolution input. -/
theorem wf_c6_witness : adjustStartEndTime 5 7 = (5 * 1000, 7 * 1000) :=
  wf_c6_adjustStartEndTime.1 5 7 (by decide) (by decide) (by decide) (by decide)

/-- Claim C7 (amended): every successful output of MetricLine,
SpanLine, SpanLogJSON and EventLine ends with exactly one newline, and
every line of a successful HistoLine output ends with exactly one
newline, but the output of EventLineJSON never ends with a newline at
all — it always ends with the closing brace byte 125. -/
theorem wf_c7_newline_termination :
    (∀ (name : List Nat) (v : GoFloat) (ts : Int) (src : List Nat) (tags : TagList)
      (d out : List Nat), MetricLine name v ts src tags d = some (.ok out) →
      ∃ t, out = t ++ [10] ∧ lastByte t ≠ some 10) ∧
    (∀ (name : List Nat) (cs : List Centroid) (hgs : List (Granularity × Bool)) (ts : Int)
      (src : List Nat) (tags : TagList) (d out : List Nat),
      HistoLine name cs hgs ts src tags d = some (.ok out) →
      ∃ bodies : List (List Nat), out = (bodies.map fun b => b ++ [10]).flatten ∧
        ∀ b ∈ bodies, 10 ∉ b) ∧
    (∀ (name : List Nat) (st dur : Int) (src tid sid : List Nat)
      (par ff : List (List Nat)) (tags : TagList) (n : Nat) (d out : List Nat),
      SpanLine name st dur src tid sid par ff tags n d = some (.ok out) →
      ∃ t, out = t ++ [10] ∧ lastByte t ≠ some 10) ∧
    (∀ (tid sid : List Nat) (logs : List (List Nat)),
      ∃ t, SpanLogJSON tid sid logs = t ++ [10] ∧ lastByte t ≠ some 10) ∧
    (∀ (name : List Nat) (sm em : Int) (src : List Nat) (tags : TagList)
      (setters : List EvOption) (out : List Nat),
      EventLine name sm em src tags setters = .ok out →
      ∃ t, out = t ++ [10] ∧ lastByte t ≠ some 10) ∧
    (∀ (name : List Nat) (sm em : Int) (src : List Nat) (tags : TagList)
      (setters : List EvOption),
      lastByte (EventLineJSON name sm em src tags setters) = some 125) := by
  refine ⟨?_, ?_, ?_, ?_, ?_, eventLineJSON_shape⟩
  · intro name v ts src tags d out h
    obtain ⟨t, h1, h2⟩ := metricLine_ok_shape name v ts src tags d out h
    exact ⟨t, h1, by rw [h2]; simp⟩
  · exact histoLine_ok_shape
  · intro name st dur src tid sid par ff tags n d out h
    obtain ⟨t, h1, dg, h2, h3, h4⟩ := spanLine_ok_shape name st dur src tid sid par ff
      tags n d out h
    refine ⟨t, h1, ?_⟩
    rw [h2]
    intro hx
    rw [Option.some.injEq] at hx
    omega
  · intro tid sid logs
    obtain ⟨t, h1, h2⟩ := spanLogJSON_shape tid sid logs
    exact ⟨t, h1, by rw [h2]; simp⟩
  · intro name sm em src tags setters out h
    obtain ⟨t, h1, h2⟩ := eventLine_ok_shape name sm em src tags setters out h
    exact ⟨t, h1, by rw [h2]; simp⟩

/-- Counterexample for C7 as stated: the successful EventLineJSON
output for a concrete event is a JSON document with no trailing
newline, so not every encoder output is newline-terminated. -/
theorem wf_c7_counterexample :
    EventLineJSON (goStr ("n")) 1533531013000 1533531013001 [] [] []
      = goStr ("\x7b\"annotations\":\x7b\x7d,\"endTime\":1533531013001,\"name\":\"n\",\"startTime\":1533531013000\x7d") ∧
    lastByte (goStr ("\x7b\"annotations\":\x7b\x7d,\"endTime\":1533531013001,\"name\":\"n\",\"startTime\":1533531013000\x7d"))
      = some 125 ∧ (125 : Nat) ≠ 10 :=
  ⟨rfl, rfl, by decide⟩

/-- Witness for C7 on the metric and event conjuncts at concrete
inputs. -/
theorem wf_c7_witness :
    (∃ t, goStr ("\"cpu.usage\" 42422 1533531013 source=\"localhost\" \"datacenter\"=\"dc1\"\n")
      = t ++ [10] ∧ lastByte t ≠ some 10) ∧
    (∃ t, goStr ("@Event 0 1 \"e\"\n") = t ++ [10] ∧ lastByte t ≠ some 10) :=
  ⟨wf_c7_newline_termination.1 (goStr ("cpu.usage")) 42422 1533531013 []
      [(goStr ("datacenter"), goStr ("dc1"))] (goStr ("localhost"))
      (goStr ("\"cpu.usage\" 42422 1533531013 source=\"localhost\" \"datacenter\"=\"dc1\"\n"))
      rfl,
   wf_c7_newline_termination.2.2.2.2.1 (goStr ("e")) 0 0 [] [] []
      (goStr ("@Event 0 1 \"e\"\n")) rfl⟩

/-- Claim C8 (amended): MetricLine, HistoLine and SpanLine reject an
empty name immediately with their respective errors and no output, and
MetricLine with empty name, value 1.0, zero timestamp, source s and
default d returns exactly the error "empty metric name"; EventLine and
EventLineJSON, however, accept an empty name. -/
theorem wf_c8_empty_name :
    (∀ (v : GoFloat) (ts : Int) (src : List Nat) (tags : TagList) (d : List Nat),
      MetricLine [] v ts src tags d = some (.error ("empty metric name"))) ∧
    (∀ (cs : List Centroid) (hgs : List (Granularity × Bool)) (ts : Int) (src : List Nat)
      (tags : TagList) (d : List Nat),
      HistoLine [] cs hgs ts src tags d = some (.error ("empty distribution name"))) ∧
    (∀ (st dur : Int) (src tid sid : List Nat) (par ff : List (List Nat)) (tags : TagList)
      (n : Nat) (d : List Nat),
      SpanLine [] st dur src tid sid par ff tags n d = some (.error ("empty span name"))) ∧
    MetricLine [] 1 0 (goStr ("s")) [] (goStr ("d")) = some (.error ("empty metric name")) :=
  ⟨fun _ _ _ _ _ => rfl, fun _ _ _ _ _ _ => rfl, fun _ _ _ _ _ _ _ _ _ _ => rfl, rfl⟩

/-- Counterexample for C8 as stated: EventLine and EventLineJSON take
a name but succeed on an empty one instead of returning an error. -/
theorem wf_c8_counterexample :
    EventLine [] 0 0 [] [] [] = .ok (goStr ("@Event 0 1 \"\"\n")) ∧
    EventLineJSON [] 0 0 [] [] []
      = goStr ("\x7b\"annotations\":\x7b\x7d,\"endTime\":1,\"name\":\"\",\"startTime\":0\x7d") :=
  ⟨rfl, rfl⟩

/-- Claim C9 (amended): HistoLine first compacts the centroid sequence
(the encoder does call Compact, contrary to the claim); on a sequence
whose values are pairwise distinct, compaction is the identity and the
centroid section is one "#count value" pair per input centroid in
input order. -/
theorem wf_c9_centroids (cs : List Centroid)
    (h : cs.Pairwise fun a b => a.value ≠ b.value) :
    Compact cs = cs ∧ centroidsBytes cs = (cs.map centroidPairBytes).flatten := by
  have hc : Compact cs = cs := by
    rw [Compact]
    have h2 := foldl_addCentroid cs [] (by intro a ha; simp at ha) h
    simpa using h2
  exact ⟨hc, by rw [centroidsBytes, hc]⟩

/-- Counterexample for C9 as stated: two input centroids with equal
values are merged before emission — the emitted line holds a single
"#" pair (byte 35 occurs once) for a two-centroid input, so the
encoder does not emit the sequence as given. -/
theorem wf_c9_counterexample :
    HistoLine (goStr ("h")) [⟨1, 2⟩, ⟨1, 3⟩] [(Granularity.minute, true)] 0 (goStr ("s"))
        [] [] = some (.ok (goStr ("!M #5 1 \"h\" source=\"s\"\n"))) ∧
    (goStr ("!M #5 1 \"h\" source=\"s\"\n")).count 35 = 1 ∧
    ([⟨1, 2⟩, ⟨1, 3⟩] : List Centroid).length = 2 :=
  ⟨rfl, rfl, rfl⟩

/-- Witness for C9 on a concrete pairwise-distinct centroid list. -/
theorem wf_c9_witness :
    Compact [⟨1, 2⟩, ⟨2, 3⟩] = [⟨1, 2⟩, ⟨2, 3⟩] ∧
    centroidsBytes [⟨1, 2⟩, ⟨2, 3⟩]
      = (([⟨1, 2⟩, ⟨2, 3⟩] : List Centroid).map centroidPairBytes).flatten :=
  wf_c9_centroids [⟨1, 2⟩, ⟨2, 3⟩] (by simp)

/-- Claim C10: SpanLine copies every parent and followsFrom id
verbatim into the output with no sanitization and no UUID validation:
the panic and error behavior is independent of those lists, and a
successful output splices the verbatim " parent=" and " followsFrom="
sections between a prefix and suffix that are exactly the output
without them. -/
theorem wf_c10_span_refs_verbatim (name : List Nat) (st dur : Int) (src tid sid : List Nat)
    (par ff : List (List Nat)) (tags : TagList) (n : Nat) (d : List Nat) :
    (SpanLine name st dur src tid sid par ff tags n d = none ↔
      SpanLine name st dur src tid sid [] [] tags n d = none) ∧
    (∀ e, SpanLine name st dur src tid sid par ff tags n d = some (.error e) ↔
      SpanLine name st dur src tid sid [] [] tags n d = some (.error e)) ∧
    (∀ o, SpanLine name st dur src tid sid par ff tags n d = some (.ok o) →
      ∃ pre post, o = pre ++ (par.map fun p => goStr (" parent=") ++ p).flatten
          ++ (ff.map fun p => goStr (" followsFrom=") ++ p).flatten ++ post ∧
        SpanLine name st dur src tid sid [] [] tags n d = some (.ok (pre ++ post))) := by
  by_cases h1 : name = []
  · simp [SpanLine, h1]
  · by_cases h2 : isUUIDFormat tid = false
    · simp [SpanLine, h1, h2]
    · by_cases h3 : isUUIDFormat sid = false
      · simp [SpanLine, h1, h2, h3]
      · cases htg : spanTagsBytes tags with
        | none => simp [SpanLine, h1, h2, h3, htg]
        | some r =>
          cases r with
          | error e => simp [SpanLine, h1, h2, h3, htg]
          | ok tb =>
            refine ⟨by simp [SpanLine, h1, h2, h3, htg],
              by simp [SpanLine, h1, h2, h3, htg], ?_⟩
            intro o ho
            rw [SpanLine] at ho
            rw [if_neg h1, if_neg h2, if_neg h3, htg] at ho
            rw [Option.some.injEq, Except.ok.injEq] at ho
            refine ⟨sanitizeValue name ++ goStr (" source=")
                ++ sanitizeValue (orDefault src d) ++ goStr (" traceId=") ++ tid
                ++ goStr (" spanId=") ++ sid,
              (if n > 0 then goStr (" \"_spanLogs\"=\"true\"") else []) ++ tb
                ++ [32] ++ intDecimal st ++ [32] ++ intDecimal dur ++ [10], ?_, ?_⟩
            · rw [← ho]
              simp [List.append_assoc]
            · rw [SpanLine]
              rw [if_neg h1, if_neg h2, if_neg h3, htg]
              simp [List.append_assoc]

/-- Witness for C10: a malformed parent id "xyz" is copied verbatim
into a successful concrete span line. -/
theorem wf_c10_witness :
    ∃ pre post,
      goStr ("\"op\" source=\"s\" traceId=7b3bf470-9456-11e8-9eb6-529269fb1459 spanId=7b3bf470-9456-11e8-9eb6-529269fb1459 parent=xyz 1 2\n")
        = pre ++ ([goStr ("xyz")].map fun p => goStr (" parent=") ++ p).flatten
          ++ (([] : List (List Nat)).map fun p => goStr (" followsFrom=") ++ p).flatten
          ++ post ∧
      SpanLine (goStr ("op")) 1 2 (goStr ("s"))
          (goStr ("7b3bf470-9456-11e8-9eb6-529269fb1459"))
          (goStr ("7b3bf470-9456-11e8-9eb6-529269fb1459")) [] [] [] 0 (goStr ("d"))
        = some (.ok (pre ++ post)) :=
  (wf_c10_span_refs_verbatim (goStr ("op")) 1 2 (goStr ("s"))
      (goStr ("7b3bf470-9456-11e8-9eb6-529269fb1459"))
      (goStr ("7b3bf470-9456-11e8-9eb6-529269fb1459"))
      [goStr ("xyz")] [] [] 0 (goStr ("d"))).2.2
    (goStr ("\"op\" source=\"s\" traceId=7b3bf470-9456-11e8-9eb6-529269fb1459 spanId=7b3bf470-9456-11e8-9eb6-529269fb1459 parent=xyz 1 2\n"))
    rfl

end WF
